import Mathlib

/-!
Verification of the evasion/population core of the Snake_nope pursuit game
(`src/unnamed/part_001`, second variant, modules 5-8; the helper functions
`clamp`, `rectsOverlap`, `len`, `norm` are identical in `src/game.js`).

Numbers are modelled by `ℚ`.  `Math.hypot` is modelled by `ratSqrt`, an
exact rational square root: it returns the true square root whenever that
root is rational (which characterises it completely on every input the
theorems below constrain), and `0` otherwise.  `Math.cos`/`Math.sin`,
`Math.random`, `performance.now()` and the constant `2*Math.PI` are
supplied by an explicit environment (`Env`), mirroring that they are
external inputs of the computation.
-/

namespace Game

/-- Integer square root by base-4 digit recursion, with explicit fuel
(one unit of fuel per base-4 digit; the recursion stops at `0` on its own,
so any fuel `f` with `n < 4 ^ f` gives the exact floor square root). -/
def sqrt4 : ℕ → ℕ → ℕ
  | 0, _ => 0
  | f + 1, n =>
    if n = 0 then 0
    else
      let s := 2 * sqrt4 f (n / 4)
      if (s + 1) * (s + 1) ≤ n then s + 1 else s

/-- Integer (floor) square root.  Fuel `n` is always sufficient since
`n < 4 ^ n`. -/
def natSqrt (n : ℕ) : ℕ := sqrt4 n n

theorem sqrt4_isSqrt : ∀ (f n : ℕ), n < 4 ^ f →
    sqrt4 f n * sqrt4 f n ≤ n ∧ n < (sqrt4 f n + 1) * (sqrt4 f n + 1) := by
  intro f
  induction f with
  | zero =>
    intro n h
    simp only [pow_zero, Nat.lt_one_iff] at h
    subst h
    simp [sqrt4]
  | succ f ih =>
    intro n h
    simp only [sqrt4]
    split
    · rename_i hn0
      subst hn0
      simp
    · rename_i hn0
      have h4 : n / 4 < 4 ^ f := by
        rw [Nat.div_lt_iff_lt_mul (by norm_num)]
        calc n < 4 ^ (f + 1) := h
        _ = 4 ^ f * 4 := by rw [pow_succ]
      obtain ⟨h1, h2⟩ := ih (n / 4) h4
      have hdm := Nat.div_add_mod n 4
      have hm4 : n % 4 < 4 := Nat.mod_lt n (by norm_num)
      have h1' : 4 * (sqrt4 f (n / 4) * sqrt4 f (n / 4)) ≤ 4 * (n / 4) :=
        Nat.mul_le_mul_left 4 h1
      have h2' : n / 4 + 1 ≤ (sqrt4 f (n / 4) + 1) * (sqrt4 f (n / 4) + 1) := h2
      split
      · rename_i hle
        refine ⟨hle, ?_⟩
        have e2 : (2 * sqrt4 f (n / 4) + 1 + 1) * (2 * sqrt4 f (n / 4) + 1 + 1)
            = 4 * ((sqrt4 f (n / 4) + 1) * (sqrt4 f (n / 4) + 1)) := by ring
        rw [e2]
        linarith
      · rename_i hgt
        push_neg at hgt
        refine ⟨?_, hgt⟩
        have e1 : 2 * sqrt4 f (n / 4) * (2 * sqrt4 f (n / 4))
            = 4 * (sqrt4 f (n / 4) * sqrt4 f (n / 4)) := by ring
        rw [e1]
        linarith [Nat.zero_le (n % 4)]

theorem natSqrt_isSqrt (n : ℕ) :
    natSqrt n * natSqrt n ≤ n ∧ n < (natSqrt n + 1) * (natSqrt n + 1) := by
  have hf : n < 4 ^ n := by
    calc n < 2 ^ n := Nat.lt_two_pow n
    _ ≤ 4 ^ n := Nat.pow_le_pow_left (by norm_num) n
  exact sqrt4_isSqrt n n hf

/-- `natSqrt` is exact on perfect squares. -/
theorem natSqrt_mul_self (k : ℕ) : natSqrt (k * k) = k := by
  obtain ⟨h1, h2⟩ := natSqrt_isSqrt (k * k)
  by_contra hne
  rcases Nat.lt_or_ge (natSqrt (k * k)) k with hlt | hge
  · nlinarith
  · have : k < natSqrt (k * k) := lt_of_le_of_ne hge (fun he => hne he.symm)
    nlinarith

/-- Exact rational square root: the unique nonnegative rational root when it
exists (`ratSqrt_sq`), `0` otherwise.  Stands for `Math.sqrt`/`Math.hypot`'s
result. -/
def ratSqrt (q : ℚ) : ℚ :=
  if 0 ≤ q.num ∧ natSqrt q.num.natAbs * natSqrt q.num.natAbs = q.num.natAbs ∧
      natSqrt q.den * natSqrt q.den = q.den then
    (natSqrt q.num.natAbs : ℚ) / (natSqrt q.den : ℚ)
  else 0

theorem ratSqrt_nonneg (q : ℚ) : 0 ≤ ratSqrt q := by
  unfold ratSqrt
  split
  · positivity
  · exact le_refl 0

theorem ratSqrt_sq (r : ℚ) (hr : 0 ≤ r) : ratSqrt (r ^ 2) = r := by
  have hnum : (r ^ 2).num = r.num * r.num := by
    rw [Rat.num_pow]; ring
  have hden : (r ^ 2).den = r.den * r.den := by
    rw [Rat.den_pow]; ring
  have hrn : 0 ≤ r.num := Rat.num_nonneg.mpr hr
  have habs : (r.num.natAbs : ℤ) = r.num := Int.natAbs_of_nonneg hrn
  have hnabs : (r ^ 2).num.natAbs = r.num.natAbs * r.num.natAbs := by
    rw [hnum, Int.natAbs_mul]
  unfold ratSqrt
  rw [hnabs, hden, natSqrt_mul_self, natSqrt_mul_self]
  have h2 : ((r.num.natAbs : ℤ) : ℚ) = (r.num : ℚ) := by rw [habs]
  have h3 : ((r.num.natAbs : ℕ) : ℚ) = (r.num : ℚ) := by
    rw [show ((r.num.natAbs : ℕ) : ℚ) = (((r.num.natAbs : ℕ) : ℤ) : ℚ) from
      (Int.cast_natCast _).symm, habs]
  split
  · rw [h3]
    exact Rat.num_div_den r
  · rename_i hcond
    exfalso
    apply hcond
    refine ⟨?_, rfl, rfl⟩
    rw [hnum]
    positivity

/-- `Math.hypot(x, y)` (exact when the true value is rational). -/
def hypot (x y : ℚ) : ℚ := ratSqrt (x ^ 2 + y ^ 2)

theorem hypot_exact (x y r : ℚ) (hr : 0 ≤ r) (h : r ^ 2 = x ^ 2 + y ^ 2) :
    hypot x y = r := by
  rw [hypot, ← h, ratSqrt_sq r hr]

theorem hypot_nonneg (x y : ℚ) : 0 ≤ hypot x y := ratSqrt_nonneg _

-- ---------------------------
-- MODULE 5: Helpers
-- ---------------------------

/-- `function clamp(v,min,max){return Math.max(min,Math.min(max,v));}` -/
def clamp (v lo hi : ℚ) : ℚ := max lo (min hi v)

structure Rect where
  x : ℚ
  y : ℚ
  w : ℚ
  h : ℚ
deriving DecidableEq

/-- `rectsOverlap(a,b)` (axis-aligned rectangle overlap test). -/
def rectsOverlap (a b : Rect) : Bool :=
  decide (a.x < b.x + b.w) && decide (a.x + a.w > b.x) &&
  decide (a.y < b.y + b.h) && decide (a.y + a.h > b.y)

/-- `function len(x,y){return Math.hypot(x,y)||1;}` -/
def len (x y : ℚ) : ℚ :=
  let l := hypot x y
  if l = 0 then 1 else l

/-- `function norm(x,y){const l=len(x,y); return {x:x/l,y:y/l};}` -/
def norm (x y : ℚ) : ℚ × ℚ := (x / len x y, y / len x y)

theorem len_pos (x y : ℚ) : 0 < len x y := by
  unfold len
  dsimp only
  split
  · exact one_pos
  · rename_i h
    exact lt_of_le_of_ne (hypot_nonneg x y) (Ne.symm h)

theorem len_exact (x y r : ℚ) (hr : 0 < r) (h : r ^ 2 = x ^ 2 + y ^ 2) :
    len x y = r := by
  unfold len
  rw [hypot_exact x y r hr.le h]
  simp [hr.ne']

/-- `Math.sign`. -/
def signQ (q : ℚ) : ℚ := if 0 < q then 1 else if q < 0 then -1 else 0

-- ---------------------------
-- MODULE 4: Input
-- ---------------------------

/-- The set of keys currently held (the part of the DOM key state the core
reads). -/
structure Keys where
  up : Bool
  down : Bool
  left : Bool
  right : Bool
  space : Bool
deriving DecidableEq

/-- `readInput()`: WASD/arrows to a normalized direction. -/
def readInput (k : Keys) : ℚ × ℚ :=
  let dy : ℚ := (if k.up then -1 else 0) + (if k.down then 1 else 0)
  let dx : ℚ := (if k.left then -1 else 0) + (if k.right then 1 else 0)
  if dx ≠ 0 ∨ dy ≠ 0 then
    let l := len dx dy
    (dx / l, dy / l)
  else (dx, dy)

/-- External inputs of one tick: arena size (`canvas.width/height`), held
keys, the `Math.random()` stream (`rand i` is the i-th draw of the tick),
`Math.cos`/`Math.sin` (`cosO`/`sinO`), the session clock value
`performance.now()/1000 - _SECT.t0` (`nowSec`) and the real constant
`2 * Math.PI` (`twoPi`), which is irrational and hence a parameter here. -/
structure Env where
  W : ℚ
  H : ℚ
  keys : Keys
  rand : ℕ → ℚ
  cosO : ℚ → ℚ
  sinO : ℚ → ℚ
  nowSec : ℚ
  twoPi : ℚ

-- ---------------------------
-- MODULE 1: Config (the CFG constants the core reads)
-- ---------------------------

def PLAYER_SPEED : ℚ := 240
def TARGET_SIZE : ℚ := 24
def TARGET_MAX_SPEED : ℚ := 220
def TARGET_MAX_ACCEL : ℚ := 600
def HEALTH_MAX : ℚ := 100
def HEALTH_DECAY_PER_SEC : ℚ := 8
def HEALTH_REFILL_ON_CLEAR : ℚ := 100
def TIME_STEP_SEC : ℚ := 30

-- ---------------------------
-- MODULE 7.2: per-target AI state (`t._ai`)
-- ---------------------------

structure AIState where
  wanderTimer : ℚ
  wanderPhase : ℚ
  lastSteerX : ℚ
  lastSteerY : ℚ
  jukeTime : ℚ
  jukeCool : ℚ
  jukeDirX : ℚ
  jukeDirY : ℚ
  patrolTime : ℚ
  patrolCool : ℚ
  patrolDirX : ℚ
  patrolDirY : ℚ
  sectorIndex : Option ℕ
deriving DecidableEq

/-- A target ("evader") cube.  `ai = none` models the not-yet-initialized
`t._ai === undefined` state. -/
structure Agent where
  x : ℚ
  y : ℚ
  w : ℚ
  h : ℚ
  vx : ℚ
  vy : ℚ
  ai : Option AIState
deriving DecidableEq

def agentRect (t : Agent) : Rect := { x := t.x, y := t.y, w := t.w, h := t.h }

-- ---------------------------
-- MODULE 6: Spawning & Cap (time-based)
-- ---------------------------

/-- `makeTarget()`: a random position in `[0, W-w] × [0, H-h]` (two
`Math.random()` draws), zero velocity, no AI state yet.  Returns the next
unread index of the random stream alongside. -/
def makeTarget (env : Env) (rng : ℕ) : Agent × ℕ :=
  ({ x := env.rand rng * (env.W - TARGET_SIZE),
     y := env.rand (rng + 1) * (env.H - TARGET_SIZE),
     w := TARGET_SIZE, h := TARGET_SIZE, vx := 0, vy := 0, ai := none },
   rng + 2)

/-- The fixed fallback spawn position `(W - w - 10, H - h - 10)`. -/
def fallbackTarget (env : Env) : Agent :=
  { x := env.W - TARGET_SIZE - 10, y := env.H - TARGET_SIZE - 10,
    w := TARGET_SIZE, h := TARGET_SIZE, vx := 0, vy := 0, ai := none }

/-- The rejection-sampling loop of `spawnAvoidingPlayer` with `n` attempts
left. -/
def spawnGo (env : Env) (p : Rect) : ℕ → ℕ → Agent × ℕ
  | 0, rng => (fallbackTarget env, rng)
  | n + 1, rng =>
    let m := makeTarget env rng
    if rectsOverlap p (agentRect m.1) then spawnGo env p n m.2 else m

/-- `spawnAvoidingPlayer()`: up to 20 attempts, then the fallback. -/
def spawnAvoidingPlayer (env : Env) (p : Rect) (rng : ℕ) : Agent × ℕ :=
  spawnGo env p 20 rng

/-- `targetCap()` with the step interval as a parameter (the code fixes it
to `CFG.TIME_STEP_SEC = 30`). -/
def targetCapGen (elapsed step : ℚ) : ℤ := 1 + ⌊elapsed / step⌋

/-- `targetCap()` = `1 + Math.floor(elapsed / CFG.TIME_STEP_SEC)`. -/
def targetCap (elapsed : ℚ) : ℤ := targetCapGen elapsed TIME_STEP_SEC

/-- The `while (targets.length < cap) targets.push(spawnAvoidingPlayer())`
loop, with explicit fuel (the loop adds one target per iteration, so fuel
`cap` always suffices: `refillGo_length`). -/
def refillGo (env : Env) (p : Rect) (cap : ℕ) : ℕ → List Agent → ℕ → List Agent × ℕ
  | 0, ts, rng => (ts, rng)
  | f + 1, ts, rng =>
    if ts.length < cap then
      let s := spawnAvoidingPlayer env p rng
      refillGo env p cap f (ts ++ [s.1]) s.2
    else (ts, rng)

def refillTargets (env : Env) (p : Rect) (cap : ℕ) (ts : List Agent) (rng : ℕ) :
    List Agent × ℕ :=
  refillGo env p cap cap ts rng

theorem refillGo_length (env : Env) (p : Rect) (cap : ℕ) :
    ∀ (f : ℕ) (ts : List Agent) (rng : ℕ), cap - ts.length ≤ f →
      ((refillGo env p cap f ts rng).1.length = max ts.length cap) := by
  intro f
  induction f with
  | zero =>
    intro ts rng hf
    simp only [refillGo]
    omega
  | succ f ih =>
    intro ts rng hf
    simp only [refillGo]
    split
    · rename_i hlt
      rw [ih _ _ (by simp; omega)]
      simp
      omega
    · rename_i hge
      simp only
      omega

theorem refillTargets_length (env : Env) (p : Rect) (cap : ℕ) (ts : List Agent)
    (rng : ℕ) : (refillTargets env p cap ts rng).1.length = max ts.length cap :=
  refillGo_length env p cap cap ts rng (by omega)

-- ---------------------------
-- MODULE 7.1 / 7.8: AI knobs (AI_CFG and AI_PROFILE)
-- ---------------------------

def SEP_RADIUS : ℚ := 90
def SEP_FORCE : ℚ := 0.9
def ORBIT_DIST : ℚ := 260
def ORBIT_FORCE : ℚ := 0.85
def WALL_REPEL_MARGIN : ℚ := 60
def SLIDE_FORCE : ℚ := 1.15
def JUKE_CLOSE_DIST : ℚ := 190
def JUKE_TRIGGER_ANGLE : ℚ := 0.85
def JUKE_COOLDOWN : ℚ := 1.1
def JUKE_DURATION : ℚ := 0.14
def JUKE_PUSH : ℚ := 1.65
def CORNER_NEAR_EDGE : ℚ := 12
def PATROL_COOLDOWN : ℚ := 1.6
def PATROL_TIME : ℚ := 0.5
def PATROL_PUSH : ℚ := 0.9
def SAFE_BAND : ℚ := 120
def WANDER_T : ℚ := 0.9
def WANDER_MAG_FAR : ℚ := 0.8
def WANDER_MAG_NEAR : ℚ := 0.35
def PANIC_SPEED_UP : ℚ := 1.12
def AI_JITTER : ℚ := 0.28
def SMOOTH : ℚ := 0.6
def LEAD : ℚ := 0.22

def HEATMAP_BIAS : ℚ := 0.75
def SECTOR_STICK : ℚ := 0.55
def DISPERSION_MIN_SPACING : ℚ := 110
def DISPERSION_EDGE_FAN : ℚ := 0.9
def HEATMAP_CELL : ℚ := 80
def HEATMAP_DECAY : ℚ := 0.94
def HEATMAP_PLAYER_STAMP : ℚ := 2.6
def SECTOR_RING_RATIO : ℚ := 0.34
def SECTOR_ROT_SPEED : ℚ := 0.06

-- ---------------------------
-- MODULE 7.10: HEATMAP (the `_HEAT` singleton)
-- ---------------------------

/-- The `_HEAT` state.  The `Float32Array` is modelled as a finite list;
`grid = none` is the initial `grid: null`. -/
structure Heat where
  grid : Option (List ℚ)
  cols : ℤ
  rows : ℤ
  lastW : ℚ
  lastH : ℚ
deriving DecidableEq

/-- Reading `g[idx] || 0`: an out-of-range read of a typed array yields
`undefined`, which `|| 0` turns into `0`. -/
def gridGet (g : List ℚ) (idx : ℤ) : ℚ :=
  if idx < 0 then 0 else g.getD idx.toNat 0

/-- Writing `g[idx] = v`: an out-of-range write to a typed array is
silently dropped (`List.set` is a no-op out of range). -/
def gridSet (g : List ℚ) (idx : ℤ) (v : ℚ) : List ℚ :=
  if idx < 0 then g else g.set idx.toNat v

/-- `heatmapInit()` (the dead `if (!cell) return` guard is omitted:
`HEATMAP_CELL|0 = 80 ≠ 0`). -/
def heatmapInit (env : Env) : Heat :=
  let cols := ⌈env.W / HEATMAP_CELL⌉
  let rows := ⌈env.H / HEATMAP_CELL⌉
  { cols := cols, rows := rows,
    grid := some (List.replicate (cols * rows).toNat 0),
    lastW := env.W, lastH := env.H }

/-- `heatmapEnsure()`. -/
def heatmapEnsure (env : Env) (h : Heat) : Heat :=
  if h.grid.isNone ∨ h.lastW ≠ env.W ∨ h.lastH ≠ env.H then heatmapInit env else h

/-- `heatmapIdx(x, y)`. -/
def heatmapIdx (h : Heat) (x y : ℚ) : ℤ :=
  let c := min (h.cols - 1) (max 0 ⌊x / HEATMAP_CELL⌋)
  let r := min (h.rows - 1) (max 0 ⌊y / HEATMAP_CELL⌋)
  r * h.cols + c

/-- `heatmapTick(dt)`: ensure, decay every cell, stamp the player's cell.
(`dt` is accepted and ignored, as in the source.) -/
def heatmapTick (env : Env) (_dt : ℚ) (p : Rect) (h0 : Heat) : Heat :=
  let h := heatmapEnsure env h0
  match h.grid with
  | none => h
  | some g =>
    let g1 := g.map (fun v => v * HEATMAP_DECAY)
    let idx := heatmapIdx h (p.x + p.w / 2) (p.y + p.h / 2)
    { h with grid := some (gridSet g1 idx (gridGet g1 idx + HEATMAP_PLAYER_STAMP)) }

/-- `heatmapSample(x, y)`. -/
def heatmapSample (env : Env) (h0 : Heat) (x y : ℚ) : ℚ :=
  let h := heatmapEnsure env h0
  match h.grid with
  | none => 0
  | some g => gridGet g (heatmapIdx h x y)

-- ---------------------------
-- MODULE 7.9: SECTORS (the `_SECT` singleton is its `assigned` flag;
-- `performance.now()/1000 - _SECT.t0` is the environment's `nowSec`)
-- ---------------------------

/-- `aiInit(t)`: lazily create `t._ai` (two random draws). -/
def aiInit (env : Env) (t : Agent) (rng : ℕ) : Agent × ℕ :=
  match t.ai with
  | some _ => (t, rng)
  | none =>
    let a : AIState :=
      { wanderTimer := env.rand rng * WANDER_T,
        wanderPhase := env.rand (rng + 1) * env.twoPi,
        lastSteerX := 0, lastSteerY := 0,
        jukeTime := 0, jukeCool := 0, jukeDirX := 0, jukeDirY := 0,
        patrolTime := 0, patrolCool := 0, patrolDirX := 0, patrolDirY := 0,
        sectorIndex := none }
    ({ t with ai := some a }, rng + 2)

/-- The all-zero `AIState`; used only as the (unreachable) default when
reading `t._ai` right after `aiInit` guaranteed it exists. -/
def zeroAI : AIState :=
  { wanderTimer := 0, wanderPhase := 0, lastSteerX := 0, lastSteerY := 0,
    jukeTime := 0, jukeCool := 0, jukeDirX := 0, jukeDirY := 0,
    patrolTime := 0, patrolCool := 0, patrolDirX := 0, patrolDirY := 0,
    sectorIndex := none }

/-- Body of the `aiAssignSectors` loop for one target at index `i`. -/
def assignOne (env : Env) (i : ℕ) (t : Agent) (rng : ℕ) : Agent × ℕ :=
  let m := aiInit env t rng
  let ai := m.1.ai.getD zeroAI
  ({ m.1 with ai := some { ai with sectorIndex := some i } }, m.2)

/-- `aiAssignSectors()`: on the first call of a session, give every target
an `_ai` (initializing lazily where needed) and set `sectorIndex := i`. -/
def aiAssignSectors (env : Env) (ts : List Agent) (assigned : Bool) (rng : ℕ) :
    List Agent × Bool × ℕ :=
  if assigned then (ts, true, rng)
  else
    let r := ts.enum.foldl
      (fun (acc : List Agent × ℕ) it =>
        let m := assignOne env it.1 it.2 acc.2
        (acc.1 ++ [m.1], m.2))
      ([], rng)
    (r.1, true, r.2)

/-- `aiSectorPointFor(t, timeSec)`: a slowly rotating point on a ring.
`(idx / N) * Math.PI * 2` is modelled with the environment's `twoPi`. -/
def aiSectorPointFor (env : Env) (ts : List Agent) (t : Agent) (timeSec : ℚ) :
    ℚ × ℚ :=
  let idx : ℕ := (t.ai.bind (fun a => a.sectorIndex)).getD 0
  let N : ℕ := max 1 ts.length
  let ring := min env.W env.H * SECTOR_RING_RATIO
  let cx := env.W * (1/2)
  let cy := env.H * (1/2)
  let baseAngle := ((idx : ℚ) / (N : ℚ)) * env.twoPi
  let rot := baseAngle + timeSec * SECTOR_ROT_SPEED
  (cx + env.cosO rot * ring, cy + env.sinO rot * ring)

-- ---------------------------
-- MODULE 7.2 (cont.): prediction and edge query
-- ---------------------------

/-- Result of `aiPredictPlayer()`. -/
structure Pred where
  px : ℚ
  py : ℚ
  hx : ℚ
  hy : ℚ
  hv : ℚ
deriving DecidableEq

/-- `aiPredictPlayer()`: player center led by `intent * speed * LEAD`. -/
def aiPredictPlayer (env : Env) (p : Rect) : Pred :=
  let d := readInput env.keys
  { px := (p.x + p.w / 2) + d.1 * PLAYER_SPEED * LEAD,
    py := (p.y + p.h / 2) + d.2 * PLAYER_SPEED * LEAD,
    hx := d.1, hy := d.2, hv := hypot d.1 d.2 }

/-- Result of `aiNearEdges(t)`. -/
structure Edges where
  L : Bool
  R : Bool
  T : Bool
  B : Bool
deriving DecidableEq

def aiNearEdges (env : Env) (t : Agent) : Edges :=
  { L := decide (t.x < CORNER_NEAR_EDGE),
    R := decide (t.x > env.W - t.w - CORNER_NEAR_EDGE),
    T := decide (t.y < CORNER_NEAR_EDGE),
    B := decide (t.y > env.H - t.h - CORNER_NEAR_EDGE) }

def Edges.inCorner (e : Edges) : Bool := (e.L || e.R) && (e.T || e.B)

-- ---------------------------
-- MODULE 7.3: AI_STEER_BASE — flee/orbit + separation + walls
-- ---------------------------

/-- The steering accumulator `base` = `{sx, sy, d, cx, cy}`. -/
structure SteerBase where
  sx : ℚ
  sy : ℚ
  d : ℚ
  cx : ℚ
  cy : ℚ
deriving DecidableEq

/-- The separation accumulation loop of `aiSteerBase` (index `i` is the
updating agent itself, skipped as `o === t` is in the source). -/
def sepSum (ts : List Agent) (i : ℕ) (cx cy : ℚ) : ℚ × ℚ :=
  ts.enum.foldl
    (fun (acc : ℚ × ℚ) jo =>
      if jo.1 = i then acc
      else
        let o := jo.2
        let dx := cx - (o.x + o.w / 2)
        let dy := cy - (o.y + o.h / 2)
        let dist := hypot dx dy
        if 0 < dist ∧ dist < SEP_RADIUS then
          let s := (SEP_RADIUS - dist) / SEP_RADIUS
          (acc.1 + dx / dist * s, acc.2 + dy / dist * s)
        else acc)
    (0, 0)

/-- `aiSteerBase(t, pred)`. -/
def aiSteerBase (env : Env) (ts : List Agent) (i : ℕ) (t : Agent) (pred : Pred) :
    SteerBase :=
  let cx := t.x + t.w / 2
  let cy := t.y + t.h / 2
  let toX := pred.px - cx
  let toY := pred.py - cy
  let d := len toX toY
  let awayX := -toX / d
  let awayY := -toY / d
  let tangX := -awayY
  let tangY := awayX
  let near := min 1 (max 0 ((ORBIT_DIST - d) / ORBIT_DIST))
  let sx0 := awayX * (0.75 + 0.25 * near) + tangX * (ORBIT_FORCE * near)
  let sy0 := awayY * (0.75 + 0.25 * near) + tangY * (ORBIT_FORCE * near)
  let sep := sepSum ts i cx cy
  let sx1 := if sep.1 ≠ 0 ∨ sep.2 ≠ 0 then sx0 + sep.1 / len sep.1 sep.2 * SEP_FORCE else sx0
  let sy1 := if sep.1 ≠ 0 ∨ sep.2 ≠ 0 then sy0 + sep.2 / len sep.1 sep.2 * SEP_FORCE else sy0
  let sx2 := if t.x < WALL_REPEL_MARGIN then
      sx1 + (if cx > pred.px then (0.4 : ℚ) else 0.2) else sx1
  let sx3 := if t.x > env.W - t.w - WALL_REPEL_MARGIN then
      sx2 + (if cx < pred.px then (-0.4 : ℚ) else -0.2) else sx2
  let sy2 := if t.y < WALL_REPEL_MARGIN then
      sy1 + (if cy > pred.py then (0.4 : ℚ) else 0.2) else sy1
  let sy3 := if t.y > env.H - t.h - WALL_REPEL_MARGIN then
      sy2 + (if cy < pred.py then (-0.4 : ℚ) else -0.2) else sy2
  let edge := aiNearEdges env t
  let sy4 := if edge.L || edge.R then
      sy3 + (if cy > pred.py then (1 : ℚ) else -1) * SLIDE_FORCE else sy3
  let sx4 := if edge.T || edge.B then
      sx3 + (if cx > pred.px then (1 : ℚ) else -1) * SLIDE_FORCE else sx3
  { sx := sx4, sy := sy4, d := d, cx := cx, cy := cy }

-- ---------------------------
-- MODULE 7.10 (cont.): heat-avoidance steering
-- ---------------------------

/-- `aiHeatmapBias(t, base)`.  Note that the y term is a single sample at
the coordinate-swapped point `(cy + 24, cx)` ("slight orthogonal smear" in
the source), not a two-sample difference. -/
def aiHeatmapBias (env : Env) (h : Heat) (t : Agent) (base : SteerBase) :
    SteerBase :=
  match h.grid with
  | none => base
  | some _ =>
    let cx := t.x + t.w / 2
    let cy := t.y + t.h / 2
    let _s0 := heatmapSample env h cx cy
    let sX := heatmapSample env h (cx + 24) cy - heatmapSample env h (cx - 24) cy
    let sY := heatmapSample env h (cy + 24) cx
    { base with sx := base.sx + -sX * 0.02 * HEATMAP_BIAS,
                sy := base.sy + -sY * 0.02 * HEATMAP_BIAS }

-- ---------------------------
-- MODULE 7.11: DISPERSION
-- ---------------------------

def agentNearEdge (env : Env) (t : Agent) : Bool :=
  decide (t.x < 12) || decide (t.y < 12) ||
  decide (t.x > env.W - t.w - 12) || decide (t.y > env.H - t.h - 12)

/-- `aiApplyDispersion(t, base)`.  Draws one random number per neighbor
whose tangential offset is exactly zero (`Math.sign(along || (Math.random()-0.5))`). -/
def aiApplyDispersion (env : Env) (ts : List Agent) (i : ℕ) (t : Agent)
    (base : SteerBase) (rng : ℕ) : SteerBase × ℕ :=
  let cx := t.x + t.w / 2
  let cy := t.y + t.h / 2
  if agentNearEdge env t then
    let dLeft := t.x
    let dRight := env.W - (t.x + t.w)
    let dTop := t.y
    let dBottom := env.H - (t.y + t.h)
    let minD := min (min (min dLeft dRight) dTop) dBottom
    let edgeVX : ℚ := if minD = dLeft ∨ minD = dRight then 0 else 1
    let edgeVY : ℚ := if minD = dLeft ∨ minD = dRight then 1 else 0
    let r := ts.enum.foldl
      (fun (acc : ℚ × ℚ × ℚ × ℕ) jo =>
        if jo.1 = i then acc
        else
          let o := jo.2
          let ox := o.x + o.w / 2
          let oy := o.y + o.h / 2
          let dist := hypot (cx - ox) (cy - oy)
          let spaceX := acc.1
          let spaceY := acc.2.1
          let tangentPush := acc.2.2.1
          let k := acc.2.2.2
          let spaceX1 := if dist < DISPERSION_MIN_SPACING then
              spaceX + (cx - ox) / len (cx - ox) (cy - oy) *
                ((DISPERSION_MIN_SPACING - dist) / DISPERSION_MIN_SPACING)
            else spaceX
          let spaceY1 := if dist < DISPERSION_MIN_SPACING then
              spaceY + (cy - oy) / len (cx - ox) (cy - oy) *
                ((DISPERSION_MIN_SPACING - dist) / DISPERSION_MIN_SPACING)
            else spaceY
          if agentNearEdge env o then
            let along := (ox - cx) * edgeVX + (oy - cy) * edgeVY
            if along = 0 then
              (spaceX1, spaceY1, tangentPush + signQ (env.rand k - 0.5), k + 1)
            else
              (spaceX1, spaceY1, tangentPush + signQ along, k)
          else (spaceX1, spaceY1, tangentPush, k))
      (0, 0, 0, rng)
    ({ base with
        sx := base.sx + r.1 * 1.0 + edgeVX * r.2.2.1 * DISPERSION_EDGE_FAN,
        sy := base.sy + r.2.1 * 1.0 + edgeVY * r.2.2.1 * DISPERSION_EDGE_FAN },
     r.2.2.2)
  else (base, rng)

-- ---------------------------
-- MODULE 7.9 (cont.): sector bias
-- ---------------------------

/-- `aiSectorBias(t, base, playerFar, dt)` (`dt` unused in the source). -/
def aiSectorBias (env : Env) (ts : List Agent) (t : Agent) (base : SteerBase)
    (playerFar : Bool) : SteerBase :=
  if playerFar then
    let p := aiSectorPointFor env ts t env.nowSec
    let toX := p.1 - (t.x + t.w / 2)
    let toY := p.2 - (t.y + t.h / 2)
    let L := len toX toY
    { base with sx := base.sx + toX / L * SECTOR_STICK,
                sy := base.sy + toY / L * SECTOR_STICK }
  else base

-- ---------------------------
-- MODULE 7.4: AI_JUKE — timed lateral bursts
-- ---------------------------

/-- `aiApplyJuke(t, base, pred, dt)` (the target itself is read only
through its `_ai`, passed here as `ai`, and through `base.cx/cy`). -/
def aiApplyJuke (env : Env) (p : Rect) (_t : Agent) (ai : AIState)
    (base : SteerBase) (pred : Pred) (dt : ℚ) (rng : ℕ) :
    SteerBase × AIState × ℕ :=
  let jc := max 0 (ai.jukeCool - dt)
  let jt := max 0 (ai.jukeTime - dt)
  let ai1 := { ai with jukeCool := jc, jukeTime := jt }
  if jt > 0 then
    ({ base with sx := base.sx + ai1.jukeDirX * JUKE_PUSH,
                 sy := base.sy + ai1.jukeDirY * JUKE_PUSH }, ai1, rng)
  else if base.d < JUKE_CLOSE_DIST ∧ jc = 0 ∧ pred.hv > 0.3 then
    let toTX := base.cx - (p.x + p.w / 2)
    let toTY := base.cy - (p.y + p.h / 2)
    let toTL := len toTX toTY
    let nhx := pred.hx / len pred.hx pred.hy
    let nhy := pred.hy / len pred.hx pred.hy
    let dot := toTX / toTL * nhx + toTY / toTL * nhy
    if dot > JUKE_TRIGGER_ANGLE then
      let awayX := (base.cx - pred.px) / len (base.cx - pred.px) (base.cy - pred.py)
      let awayY := (base.cy - pred.py) / len (base.cx - pred.px) (base.cy - pred.py)
      let lx := -awayY
      let ly := awayX
      let rx := awayY
      let ry := -awayX
      let sL := (base.cx + lx * 40 - pred.px) ^ 2 + (base.cy + ly * 40 - pred.py) ^ 2
      let sR := (base.cx + rx * 40 - pred.px) ^ 2 + (base.cy + ry * 40 - pred.py) ^ 2
      let dX := if sL > sR then lx else rx
      let dY := if sL > sR then ly else ry
      (base,
       { ai1 with jukeDirX := dX, jukeDirY := dY, jukeTime := JUKE_DURATION,
                  jukeCool := JUKE_COOLDOWN + env.rand rng * 0.4 },
       rng + 1)
    else (base, ai1, rng)
  else (base, ai1, rng)

-- ---------------------------
-- MODULE 7.5: AI_PATROL — proactive anti-corner
-- ---------------------------

/-- `aiApplyPatrol(t, base, pred, dt)`. -/
def aiApplyPatrol (env : Env) (t : Agent) (ai : AIState) (base : SteerBase)
    (pred : Pred) (dt : ℚ) (rng : ℕ) : SteerBase × AIState × ℕ :=
  let pc := max 0 (ai.patrolCool - dt)
  let pt := max 0 (ai.patrolTime - dt)
  let ai1 := { ai with patrolCool := pc, patrolTime := pt }
  if pt > 0 then
    ({ base with sx := base.sx + ai1.patrolDirX * PATROL_PUSH,
                 sy := base.sy + ai1.patrolDirY * PATROL_PUSH }, ai1, rng)
  else
    let edge := aiNearEdges env t
    let playerFar := decide (base.d > ORBIT_DIST * 0.9)
    let onEdge := edge.inCorner || edge.L || edge.R || edge.T || edge.B
    if playerFar && onEdge && decide (pc = 0) then
      let targetX := min (env.W - SAFE_BAND) (max SAFE_BAND base.cx)
      let targetY := min (env.H - SAFE_BAND) (max SAFE_BAND base.cy)
      let dirX0 := signQ (targetX - base.cx)
      let dirY0 := signQ (targetY - base.cy)
      let tangX := -(pred.py - base.cy)
      let tangY := pred.px - base.cx
      let tL := len tangX tangY
      let dirX := 0.75 * dirX0 + 0.25 * (tangX / tL)
      let dirY := 0.75 * dirY0 + 0.25 * (tangY / tL)
      let n := len dirX dirY
      (base,
       { ai1 with patrolDirX := dirX / n, patrolDirY := dirY / n,
                  patrolTime := PATROL_TIME,
                  patrolCool := PATROL_COOLDOWN + env.rand rng * 0.5 },
       rng + 1)
    else (base, ai1, rng)

-- ---------------------------
-- MODULE 7.6: AI_INTEGRATE — smoothing, velocity, clamps
-- ---------------------------

/-- Lines 764-769 of the source: normalize the summed steering vector with
the `||1` guard, blend with the previous frame's smoothed direction, store
the blend as the next `lastSteer`.  Returns `((ax, ay), updated state)`. -/
def aiSmoothNorm (ai : AIState) (sx sy : ℚ) : (ℚ × ℚ) × AIState :=
  let sl := len sx sy
  let ax0 := sx / sl
  let ay0 := sy / sl
  let ax := ax0 * (1 - SMOOTH) + ai.lastSteerX * SMOOTH
  let ay := ay0 * (1 - SMOOTH) + ai.lastSteerY * SMOOTH
  ((ax, ay), { ai with lastSteerX := ax, lastSteerY := ay })

/-- Result of the wander/jitter/smoothing prefix of `aiIntegrate`. -/
structure SmoothOut where
  ax : ℚ
  ay : ℚ
  ai2 : AIState
  rng2 : ℕ

/-- The wander + jitter + smoothing prefix of `aiIntegrate` (lines 754-769):
advance the wander timer (re-rolling phase when it expires, two draws), add
the wander and jitter terms to the steering sum, then normalize and smooth. -/
def aiWanderSmooth (env : Env) (ai : AIState) (base : SteerBase) (dt : ℚ)
    (rng : ℕ) : SmoothOut :=
  let wt := ai.wanderTimer - dt
  let wt2 := if wt ≤ 0 then WANDER_T + env.rand rng * 0.6 else wt
  let ph2 := if wt ≤ 0 then ai.wanderPhase + (env.rand (rng + 1) - 0.5) * 1.1
             else ai.wanderPhase
  let rng1 := if wt ≤ 0 then rng + 2 else rng
  let ai1 := { ai with wanderTimer := wt2, wanderPhase := ph2 }
  let wanderMag := if base.d > ORBIT_DIST then WANDER_MAG_FAR else WANDER_MAG_NEAR
  let sx := base.sx + env.cosO ph2 * wanderMag + (env.rand rng1 - 0.5) * AI_JITTER
  let sy := base.sy + env.sinO ph2 * wanderMag + (env.rand (rng1 + 1) - 0.5) * AI_JITTER
  let m := aiSmoothNorm ai1 sx sy
  { ax := m.1.1, ay := m.1.2, ai2 := m.2, rng2 := rng1 + 2 }

/-- The velocity right after `t.vx += ax * CFG.TARGET_MAX_ACCEL * dt` and
before the speed clamp. -/
def aiPreVel (env : Env) (t : Agent) (ai : AIState) (base : SteerBase)
    (dt : ℚ) (rng : ℕ) : ℚ × ℚ :=
  let so := aiWanderSmooth env ai base dt rng
  (t.vx + so.ax * TARGET_MAX_ACCEL * dt, t.vy + so.ay * TARGET_MAX_ACCEL * dt)

/-- The speed clamp `const vL = Math.hypot(t.vx,t.vy)||1; if (vL > maxV) ...`. -/
def speedClamp (vx vy maxV : ℚ) : ℚ × ℚ :=
  let vL := len vx vy
  if vL > maxV then (vx / vL * maxV, vy / vL * maxV) else (vx, vy)

/-- The move + containment tail of `aiIntegrate` (lines 784-790): advance
the position by `v * dt`, then the four sequential clamp-and-damped-bounce
checks. -/
def moveContain (env : Env) (dt : ℚ) (t : Agent) : Agent :=
  let x1 := t.x + t.vx * dt
  let y1 := t.y + t.vy * dt
  let x2 := if x1 < 0 then 0 else x1
  let vx2 := if x1 < 0 then |t.vx| * 0.7 else t.vx
  let y2 := if y1 < 0 then 0 else y1
  let vy2 := if y1 < 0 then |t.vy| * 0.7 else t.vy
  let x3 := if x2 > env.W - t.w then env.W - t.w else x2
  let vx3 := if x2 > env.W - t.w then -(|vx2| * 0.7) else vx2
  let y3 := if y2 > env.H - t.h then env.H - t.h else y2
  let vy3 := if y2 > env.H - t.h then -(|vy2| * 0.7) else vy2
  { t with x := x3, y := y3, vx := vx3, vy := vy3 }

/-- `aiIntegrate(t, base, dt)`: wander/jitter/smoothing, panic speed bump,
velocity integration, speed clamp, move, containment. -/
def aiIntegrate (env : Env) (t : Agent) (ai : AIState) (base : SteerBase)
    (dt : ℚ) (rng : ℕ) : Agent × AIState × ℕ :=
  let so := aiWanderSmooth env ai base dt rng
  let panic := if base.d < 150 then PANIC_SPEED_UP else 1
  let maxV := TARGET_MAX_SPEED * panic
  let v1 := aiPreVel env t ai base dt rng
  let v2 := speedClamp v1.1 v1.2 maxV
  let t1 := moveContain env dt { t with vx := v2.1, vy := v2.2 }
  (t1, so.ai2, so.rng2)

-- ---------------------------
-- MODULE 7.7: updateTargetAI — per-target composition
-- ---------------------------

/-- The layered steering-and-integration core of `updateTargetAI` once
`t._ai` exists and sectors are assigned: predict, base steer, heat bias,
dispersion, sector bias, juke, patrol, integrate.  Returns the updated
agent, the random-stream cursor, and nothing else (the heat field was
already advanced by the caller). -/
def agentSteerCore (env : Env) (p : Rect) (dt : ℚ) (ts : List Agent) (i : ℕ)
    (t : Agent) (heat : Heat) (rng : ℕ) : Agent × ℕ :=
  let ai := t.ai.getD zeroAI
  let pred := aiPredictPlayer env p
  let base0 := aiSteerBase env ts i t pred
  let playerFar := decide (base0.d > ORBIT_DIST * 0.9)
  let base1 := aiHeatmapBias env heat t base0
  let m2 := aiApplyDispersion env ts i t base1 rng
  let base3 := aiSectorBias env ts t m2.1 playerFar
  let m4 := aiApplyJuke env p t ai base3 pred dt m2.2
  let m5 := aiApplyPatrol env t m4.2.1 m4.1 pred dt m4.2.2
  let m6 := aiIntegrate env t m5.2.1 m5.1 dt m5.2.2
  ({ m6.1 with ai := some m6.2.1 }, m6.2.2)

/-- `updateTargetAI(t, dt)` for the target at index `i` of the active list:
lazy `aiInit`, one-time `aiAssignSectors`, `heatmapTick`, then the steering
layers and the integrator.  Returns the active list with entry `i` (and,
on the assigning call, every entry's `_ai`) replaced, the advanced heat
field, the sector-assignment flag and the random cursor. -/
def updateTargetAI (env : Env) (p : Rect) (dt : ℚ) (ts : List Agent) (i : ℕ)
    (heat : Heat) (assigned : Bool) (rng : ℕ) :
    List Agent × Heat × Bool × ℕ :=
  match ts[i]? with
  | none => (ts, heat, assigned, rng)
  | some t0 =>
    let m1 := aiInit env t0 rng
    let ts1 := ts.set i m1.1
    let m2 := aiAssignSectors env ts1 assigned m1.2
    let heat1 := heatmapTick env dt p heat
    let t2 := (m2.1[i]?).getD m1.1
    let m3 := agentSteerCore env p dt m2.1 i t2 heat1 m2.2.2
    (m2.1.set i m3.1, heat1, m2.2.1, m3.2)

-- ---------------------------
-- MODULE 8: Update (drain, clear-then-refill, time cap)
-- ---------------------------

/-- The mutable state threaded through the per-tick target loop. -/
structure LoopSt where
  targets : List Agent
  heat : Heat
  assigned : Bool
  score : ℕ
  rng : ℕ

/-- One iteration of the `for (let i = targets.length - 1; i >= 0; i--)`
loop: update the target at index `i` in place, then if it overlaps the
player, `score += 1` and `targets.splice(i, 1)`. -/
def tickStep (env : Env) (p : Rect) (dt : ℚ) (i : ℕ) (s : LoopSt) : LoopSt :=
  let m := updateTargetAI env p dt s.targets i s.heat s.assigned s.rng
  match m.1[i]? with
  | none => { s with targets := m.1, heat := m.2.1, assigned := m.2.2.1, rng := m.2.2.2 }
  | some t1 =>
    if rectsOverlap p (agentRect t1) then
      { targets := m.1.eraseIdx i, heat := m.2.1, assigned := m.2.2.1,
        score := s.score + 1, rng := m.2.2.2 }
    else
      { targets := m.1, heat := m.2.1, assigned := m.2.2.1,
        score := s.score, rng := m.2.2.2 }

/-- The whole loop, counting `i` down from `targets.length - 1` to `0`
(`tickLoop (length)` runs it). -/
def tickLoop (env : Env) (p : Rect) (dt : ℚ) : ℕ → LoopSt → LoopSt
  | 0, s => s
  | i + 1, s => tickLoop env p dt i (tickStep env p dt i s)

/-- The whole mutable module-level state of MODULE 3 plus the AI singletons
(`_HEAT`, `_SECT.assigned`). -/
structure GameState where
  player : Rect
  score : ℕ
  hp : ℚ
  alive : Bool
  elapsed : ℚ
  targets : List Agent
  heat : Heat
  assigned : Bool

/-- `restart()`: reset score/hp/alive/elapsed, clear the targets and spawn
up to `targetCap()` (evaluated at the freshly reset `elapsed = 0`).  The
player position and the AI singletons are untouched, as in the source. -/
def restart (env : Env) (st : GameState) : GameState :=
  let r := refillTargets env st.player (targetCap 0).toNat [] 0
  { st with score := 0, hp := HEALTH_MAX, alive := true, elapsed := 0,
            targets := r.1 }

/-- The player rectangle after this tick's input-driven move and clamp. -/
def movedPlayer (env : Env) (dt : ℚ) (p : Rect) : Rect :=
  let d := readInput env.keys
  { p with x := clamp (p.x + d.1 * PLAYER_SPEED * dt) 0 (env.W - p.w),
           y := clamp (p.y + d.2 * PLAYER_SPEED * dt) 0 (env.H - p.h) }

/-- The capture pass of `update(dt)`: the backwards loop over all targets
against the already-moved player. -/
def capturePass (env : Env) (dt : ℚ) (st : GameState) : LoopSt :=
  tickLoop env (movedPlayer env dt st.player) dt st.targets.length
    { targets := st.targets, heat := st.heat, assigned := st.assigned,
      score := st.score, rng := 0 }

/-- `update(dt)`: game-over handling, elapsed accumulation, health drain,
player move, the capture pass, and the clear-then-refill policy (heal and
respawn to `targetCap()` only when all targets were cleared). -/
def update (env : Env) (dt : ℚ) (st : GameState) : GameState :=
  if st.alive then
    let elapsed1 := st.elapsed + dt
    let hp1 := clamp (st.hp - HEALTH_DECAY_PER_SEC * dt) 0 HEALTH_MAX
    if hp1 ≤ 0 then { st with elapsed := elapsed1, hp := hp1, alive := false }
    else
      let p1 := movedPlayer env dt st.player
      let L := capturePass env dt st
      if L.targets.length = 0 then
        let hp2 := clamp (hp1 + HEALTH_REFILL_ON_CLEAR) 0 HEALTH_MAX
        let r := refillTargets env p1 (targetCap elapsed1).toNat L.targets L.rng
        { player := p1, score := L.score, hp := hp2, alive := true,
          elapsed := elapsed1, targets := r.1, heat := L.heat,
          assigned := L.assigned }
      else
        { player := p1, score := L.score, hp := hp1, alive := true,
          elapsed := elapsed1, targets := L.targets, heat := L.heat,
          assigned := L.assigned }
  else
    if env.keys.space then restart env st else st

-- ---------------------------
-- Reference tick for claim C9, following the spec's words
-- ---------------------------

/-- Modelled from the spec (§5): one step of the mark phase of a
mark-then-compact tick.  The agent at index `i` is updated by the very same
per-agent update, but its neighbour reads use the full PRE-TICK list
`ts0`; the heat field, sector flag and random cursor are threaded in the
same (descending-index) order as the code's loop. -/
def specMarkStep (env : Env) (p : Rect) (dt : ℚ) (ts0 : List Agent) (i : ℕ)
    (heat : Heat) (assigned : Bool) (rng : ℕ) :
    Option Agent × Heat × Bool × ℕ :=
  let m := updateTargetAI env p dt ts0 i heat assigned rng
  (m.1[i]?, m.2)

/-- Modelled from the spec (§5, claim C9): the mark phase, collecting each
agent's update computed against the pre-tick list `ts0`, indices counted
down exactly as in the code. -/
def specMarkAll (env : Env) (p : Rect) (dt : ℚ) (ts0 : List Agent) :
    ℕ → Heat → Bool → ℕ → List Agent → List Agent × Heat × Bool × ℕ
  | 0, heat, assigned, rng, acc => (acc, heat, assigned, rng)
  | i + 1, heat, assigned, rng, acc =>
    let m := specMarkStep env p dt ts0 i heat assigned rng
    match m.1 with
    | none => specMarkAll env p dt ts0 i m.2.1 m.2.2.1 m.2.2.2 acc
    | some t1 => specMarkAll env p dt ts0 i m.2.1 m.2.2.1 m.2.2.2 (t1 :: acc)

/-- Modelled from the spec (§5, claim C9): "running every agent's AI update
against the full pre-tick active set and then compacting out the captured
agents (mark-then-compact)". -/
def specMarkThenCompact (env : Env) (p : Rect) (dt : ℚ) (ts0 : List Agent)
    (heat : Heat) (assigned : Bool) (rng : ℕ) : List Agent :=
  let m := specMarkAll env p dt ts0 ts0.length heat assigned rng []
  m.1.filter (fun t => ¬ rectsOverlap p (agentRect t))

-- =====================================================================
-- Claim theorems
-- =====================================================================

/-- C1: for every non-negative elapsed session time `e` and positive step
interval, the population cap is exactly `1 + ⌊e / step⌋`, it is monotonically
non-decreasing in `e`, it equals `1` right after a session restart (which
resets `elapsed` to `0`), and with `step = 30` it takes the example values
`cap 0 = 1`, `cap 29.9 = 1`, `cap 30 = 2`, `cap 89.9 = 3`, `cap 90 = 4`. -/
theorem targetCap_formula_monotone_restart (e e' step : ℚ) (_he : 0 ≤ e)
    (hstep : 0 < step) (hee : e ≤ e') :
    targetCapGen e step = 1 + ⌊e / step⌋ ∧
    targetCapGen e step ≤ targetCapGen e' step ∧
    (∀ (env : Env) (st : GameState), targetCap (restart env st).elapsed = 1) ∧
    targetCapGen 0 30 = 1 ∧ targetCapGen (29.9 : ℚ) 30 = 1 ∧
    targetCapGen 30 30 = 2 ∧ targetCapGen (89.9 : ℚ) 30 = 3 ∧
    targetCapGen 90 30 = 4 := by
  refine ⟨rfl, ?_, ?_, by norm_num [targetCapGen], by norm_num [targetCapGen],
    by norm_num [targetCapGen], by norm_num [targetCapGen], by norm_num [targetCapGen]⟩
  · unfold targetCapGen
    have h : e / step ≤ e' / step := (div_le_div_iff_of_pos_right hstep).mpr hee
    exact add_le_add_left (Int.floor_le_floor h) 1
  · intro env st
    have h : (restart env st).elapsed = 0 := rfl
    rw [h]
    norm_num [targetCap, targetCapGen, TIME_STEP_SEC]

/-- Witness for C1 at `e = 0`, `e' = 30`, `step = 30`. -/
theorem targetCap_formula_monotone_restart_witness :
    (0 : ℚ) ≤ 0 ∧ (0 : ℚ) < 30 ∧ (0 : ℚ) ≤ 30 ∧
    (targetCapGen 0 30 = 1 + ⌊(0 : ℚ) / 30⌋ ∧
     targetCapGen 0 30 ≤ targetCapGen 30 30 ∧
     (∀ (env : Env) (st : GameState), targetCap (restart env st).elapsed = 1) ∧
     targetCapGen 0 30 = 1 ∧ targetCapGen (29.9 : ℚ) 30 = 1 ∧
     targetCapGen 30 30 = 2 ∧ targetCapGen (89.9 : ℚ) 30 = 3 ∧
     targetCapGen 90 30 = 4) :=
  ⟨le_refl 0, by norm_num, by norm_num,
   targetCap_formula_monotone_restart 0 30 30 (le_refl 0) (by norm_num) (by norm_num)⟩

/-- C6: vector normalization is total and never divides by zero: the
divisor `len x y` is strictly positive for every input (a zero-length
vector is treated as having length `1`), and normalizing the zero vector
yields the zero vector. -/
theorem norm_total_zero_safe :
    norm 0 0 = (0, 0) ∧ len 0 0 = 1 ∧ ∀ x y : ℚ, 0 < len x y := by
  refine ⟨?_, ?_, len_pos⟩
  · show ((0 : ℚ) / len 0 0, (0 : ℚ) / len 0 0) = ((0 : ℚ), (0 : ℚ))
    simp
  · show (if hypot 0 0 = 0 then (1 : ℚ) else hypot 0 0) = 1
    rw [hypot_exact 0 0 0 (le_refl 0) (by norm_num)]
    simp

/-- C10: when the session is over (`alive = false`) and the space key is
not held, a tick of `update` leaves the whole game state (player, targets,
score, health, elapsed time, heat field, sector flag) unchanged. -/
theorem update_frozen_when_dead (env : Env) (dt : ℚ) (st : GameState)
    (halive : st.alive = false) (hspace : env.keys.space = false) :
    update env dt st = st := by
  unfold update
  rw [halive, hspace]
  simp

/-- A fixed concrete environment used by several witnesses: 640×480 arena,
no keys held, every random draw `1/2`, trigonometry frozen at the phase-0
values `cos = 1`, `sin = 0`, session clock at `0`. -/
def envW : Env :=
  { W := 640, H := 480,
    keys := { up := false, down := false, left := false, right := false,
              space := false },
    rand := fun _ => 1/2, cosO := fun _ => 1, sinO := fun _ => 0,
    nowSec := 0, twoPi := 0 }

/-- A concrete finished-session game state used by the C10 witness. -/
def deadState : GameState :=
  { player := { x := 120, y := 120, w := 24, h := 24 }, score := 3,
    hp := 50, alive := false, elapsed := 7,
    targets := [{ x := 10, y := 10, w := 24, h := 24, vx := 1, vy := 2,
                  ai := none }],
    heat := { grid := none, cols := 0, rows := 0, lastW := 0, lastH := 0 },
    assigned := false }

/-- Witness for C10: a concrete dead state under a concrete space-less
environment is left untouched. -/
theorem update_frozen_when_dead_witness :
    deadState.alive = false ∧ envW.keys.space = false ∧
    update envW (1/100) deadState = deadState :=
  ⟨rfl, rfl, update_frozen_when_dead envW (1/100) deadState rfl rfl⟩

/-- C5: an integration step that carries the agent across the left arena
boundary with `vx < 0` leaves it, after the containment step, with `x`
clamped to `0` and `vx = |vx| * 0.7 ≥ 0` (so an incoming `vx = -100`
yields `vx = 70`); the analogous clamp-and-damped-reflect holds on the
top, right and bottom boundaries. -/
theorem boundary_bounce (env : Env) (dt : ℚ) (t : Agent)
    (hW : t.w ≤ env.W) (hH : t.h ≤ env.H) :
    (t.x + t.vx * dt < 0 → t.vx < 0 →
      (moveContain env dt t).x = 0 ∧
      (moveContain env dt t).vx = |t.vx| * 0.7 ∧
      (moveContain env dt t).vx = -t.vx * 0.7 ∧
      0 ≤ (moveContain env dt t).vx) ∧
    (t.y + t.vy * dt < 0 → t.vy < 0 →
      (moveContain env dt t).y = 0 ∧
      (moveContain env dt t).vy = |t.vy| * 0.7 ∧
      0 ≤ (moveContain env dt t).vy) ∧
    (t.x + t.vx * dt > env.W - t.w → 0 < t.vx →
      (moveContain env dt t).x = env.W - t.w ∧
      (moveContain env dt t).vx = -(|t.vx| * 0.7) ∧
      (moveContain env dt t).vx ≤ 0) ∧
    (t.y + t.vy * dt > env.H - t.h → 0 < t.vy →
      (moveContain env dt t).y = env.H - t.h ∧
      (moveContain env dt t).vy = -(|t.vy| * 0.7) ∧
      (moveContain env dt t).vy ≤ 0) := by
  have habs : ∀ q : ℚ, q < 0 → |q| = -q := fun q hq => abs_of_neg hq
  refine ⟨?_, ?_, ?_, ?_⟩
  · intro h1 h2
    simp only [moveContain]
    rw [if_pos h1, if_pos h1, if_neg (by push_neg; linarith),
      if_neg (by push_neg; linarith)]
    refine ⟨rfl, rfl, by rw [habs _ h2], ?_⟩
    have := abs_nonneg t.vx
    nlinarith
  · intro h1 h2
    simp only [moveContain]
    rw [if_pos h1, if_pos h1, if_neg (by push_neg; linarith),
      if_neg (by push_neg; linarith)]
    refine ⟨rfl, rfl, ?_⟩
    have := abs_nonneg t.vy
    nlinarith
  · intro h1 h2
    have hn : ¬ t.x + t.vx * dt < 0 := by push_neg; linarith
    simp only [moveContain]
    rw [if_neg hn, if_neg hn, if_pos h1, if_pos h1]
    refine ⟨rfl, rfl, ?_⟩
    have := abs_nonneg t.vx
    nlinarith
  · intro h1 h2
    have hn : ¬ t.y + t.vy * dt < 0 := by push_neg; linarith
    simp only [moveContain]
    rw [if_neg hn, if_neg hn, if_pos h1, if_pos h1]
    refine ⟨rfl, rfl, ?_⟩
    have := abs_nonneg t.vy
    nlinarith

/-- The agent of the C5 witness: about to cross the left wall with
`vx = -100`. -/
def bounceAgent : Agent :=
  { x := 5, y := 100, w := 24, h := 24, vx := -100, vy := 0, ai := none }

/-- Witness for C5: with restitution `0.7` and incoming `vx = -100`, the
containment tick clamps `x` to `0` and reflects the velocity to `70`. -/
theorem boundary_bounce_witness :
    bounceAgent.x + bounceAgent.vx * (1/10) < 0 ∧ bounceAgent.vx < 0 ∧
    (moveContain envW (1/10) bounceAgent).x = 0 ∧
    (moveContain envW (1/10) bounceAgent).vx = 70 := by
  have h := (boundary_bounce envW (1/10) bounceAgent
      (by norm_num [bounceAgent, envW]) (by norm_num [bounceAgent, envW])).1
    (by norm_num [bounceAgent]) (by norm_num [bounceAgent])
  refine ⟨by norm_num [bounceAgent], by norm_num [bounceAgent], h.1, ?_⟩
  rw [h.2.2.1]
  norm_num [bounceAgent]

/-- After containment the agent's rectangle is inside the arena. -/
theorem moveContain_mem (env : Env) (dt : ℚ) (t : Agent)
    (hw : t.w ≤ env.W) (hh : t.h ≤ env.H) :
    0 ≤ (moveContain env dt t).x ∧ (moveContain env dt t).x ≤ env.W - t.w ∧
    0 ≤ (moveContain env dt t).y ∧ (moveContain env dt t).y ≤ env.H - t.h := by
  simp only [moveContain]
  split_ifs <;> constructor <;> try constructor
  all_goals try constructor
  all_goals linarith

theorem moveContain_w (env : Env) (dt : ℚ) (t : Agent) :
    (moveContain env dt t).w = t.w := rfl

theorem moveContain_h (env : Env) (dt : ℚ) (t : Agent) :
    (moveContain env dt t).h = t.h := rfl

/-- Every result of the spawn rejection loop (random attempt or fallback)
is a `24×24` rectangle inside the arena. -/
theorem spawnGo_bounds (env : Env) (p : Rect) (hW : 34 ≤ env.W)
    (hH : 34 ≤ env.H) (hrand : ∀ i, 0 ≤ env.rand i ∧ env.rand i ≤ 1) :
    ∀ (n rs : ℕ),
      (spawnGo env p n rs).1.w = TARGET_SIZE ∧
      (spawnGo env p n rs).1.h = TARGET_SIZE ∧
      0 ≤ (spawnGo env p n rs).1.x ∧
      (spawnGo env p n rs).1.x ≤ env.W - TARGET_SIZE ∧
      0 ≤ (spawnGo env p n rs).1.y ∧
      (spawnGo env p n rs).1.y ≤ env.H - TARGET_SIZE := by
  intro n
  induction n with
  | zero =>
    intro rs
    refine ⟨rfl, rfl, ?_, ?_, ?_, ?_⟩ <;>
      simp only [spawnGo, fallbackTarget, TARGET_SIZE] <;> linarith
  | succ n ih =>
    intro rs
    simp only [spawnGo]
    split
    · exact ih _
    · have h1 := hrand rs
      have h2 := hrand (rs + 1)
      refine ⟨rfl, rfl, ?_, ?_, ?_, ?_⟩ <;>
        simp only [makeTarget, TARGET_SIZE] <;> nlinarith

/-- C3: the agent rectangle lies inside the arena both at spawn (random
attempt or fallback) and after every simulated tick (the position update
of `aiIntegrate` ends in the containment clamps). -/
theorem agent_in_arena (env : Env) (p : Rect) (t : Agent) (ai : AIState)
    (base : SteerBase) (dt : ℚ) (rng rs : ℕ)
    (hw : t.w ≤ env.W) (hh : t.h ≤ env.H) (hW : 34 ≤ env.W) (hH : 34 ≤ env.H)
    (hrand : ∀ i, 0 ≤ env.rand i ∧ env.rand i ≤ 1) :
    (0 ≤ (spawnAvoidingPlayer env p rs).1.x ∧
     (spawnAvoidingPlayer env p rs).1.x
       ≤ env.W - (spawnAvoidingPlayer env p rs).1.w ∧
     0 ≤ (spawnAvoidingPlayer env p rs).1.y ∧
     (spawnAvoidingPlayer env p rs).1.y
       ≤ env.H - (spawnAvoidingPlayer env p rs).1.h) ∧
    (0 ≤ (aiIntegrate env t ai base dt rng).1.x ∧
     (aiIntegrate env t ai base dt rng).1.x ≤ env.W - t.w ∧
     0 ≤ (aiIntegrate env t ai base dt rng).1.y ∧
     (aiIntegrate env t ai base dt rng).1.y ≤ env.H - t.h) := by
  constructor
  · have h := spawnGo_bounds env p hW hH hrand 20 rs
    refine ⟨h.2.2.1, ?_, h.2.2.2.2.1, ?_⟩
    · rw [show (spawnAvoidingPlayer env p rs).1.w = TARGET_SIZE from h.1]
      exact h.2.2.2.1
    · rw [show (spawnAvoidingPlayer env p rs).1.h = TARGET_SIZE from h.2.1]
      exact h.2.2.2.2.2
  · simp only [aiIntegrate]
    exact moveContain_mem env dt _ hw hh

/-- A concrete steering accumulator used by witnesses. -/
def baseW : SteerBase := { sx := 1, sy := 0, d := 400, cx := 200, cy := 240 }

/-- Witness for C3 at a concrete environment, player, agent and tick. -/
theorem agent_in_arena_witness :
    (bounceAgent.w ≤ envW.W ∧ bounceAgent.h ≤ envW.H ∧
     (34 : ℚ) ≤ envW.W ∧ (34 : ℚ) ≤ envW.H ∧
     (∀ i, 0 ≤ envW.rand i ∧ envW.rand i ≤ 1)) ∧
    (0 ≤ (spawnAvoidingPlayer envW deadState.player 0).1.x ∧
     (spawnAvoidingPlayer envW deadState.player 0).1.x
       ≤ envW.W - (spawnAvoidingPlayer envW deadState.player 0).1.w ∧
     0 ≤ (spawnAvoidingPlayer envW deadState.player 0).1.y ∧
     (spawnAvoidingPlayer envW deadState.player 0).1.y
       ≤ envW.H - (spawnAvoidingPlayer envW deadState.player 0).1.h) ∧
    (0 ≤ (aiIntegrate envW bounceAgent zeroAI baseW (1/10) 0).1.x ∧
     (aiIntegrate envW bounceAgent zeroAI baseW (1/10) 0).1.x
       ≤ envW.W - bounceAgent.w ∧
     0 ≤ (aiIntegrate envW bounceAgent zeroAI baseW (1/10) 0).1.y ∧
     (aiIntegrate envW bounceAgent zeroAI baseW (1/10) 0).1.y
       ≤ envW.H - bounceAgent.h) := by
  have hrand : ∀ i, 0 ≤ envW.rand i ∧ envW.rand i ≤ 1 := by
    intro i
    constructor <;> norm_num [envW]
  have h := agent_in_arena envW deadState.player bounceAgent zeroAI baseW
    (1/10) 0 0 (by norm_num [bounceAgent, envW]) (by norm_num [bounceAgent, envW])
    (by norm_num [envW]) (by norm_num [envW]) hrand
  exact ⟨⟨by norm_num [bounceAgent, envW], by norm_num [bounceAgent, envW],
    by norm_num [envW], by norm_num [envW], hrand⟩, h.1, h.2⟩

/-- The speed clamp caps the squared speed at `maxV ^ 2` whenever the
pre-clamp speed is an exact rational `r`. -/
theorem speedClamp_sq_le (vx vy maxV r : ℚ) (hr : 0 ≤ r)
    (hsq : r ^ 2 = vx ^ 2 + vy ^ 2) :
    (speedClamp vx vy maxV).1 ^ 2 + (speedClamp vx vy maxV).2 ^ 2
      ≤ maxV ^ 2 := by
  by_cases hr0 : r = 0
  · subst hr0
    have hvx : vx = 0 := by nlinarith [sq_nonneg vx, sq_nonneg vy]
    have hvy : vy = 0 := by nlinarith [sq_nonneg vx, sq_nonneg vy]
    subst hvx; subst hvy
    simp only [speedClamp]
    split_ifs <;> simp <;> positivity
  · have hrpos : 0 < r := lt_of_le_of_ne hr (Ne.symm hr0)
    have hlen : len vx vy = r := len_exact vx vy r hrpos hsq
    simp only [speedClamp, hlen]
    split_ifs with hgt
    · have heq : (vx / r * maxV) ^ 2 + (vy / r * maxV) ^ 2 = maxV ^ 2 := by
        field_simp
        linear_combination (-maxV ^ 2) * hsq
      exact le_of_eq heq
    · push_neg at hgt
      have hM : 0 ≤ maxV := hrpos.le.trans hgt
      nlinarith

/-- The containment clamps never increase the squared speed. -/
theorem moveContain_vsq (env : Env) (dt : ℚ) (t : Agent) :
    (moveContain env dt t).vx ^ 2 + (moveContain env dt t).vy ^ 2
      ≤ t.vx ^ 2 + t.vy ^ 2 := by
  have habsx : |(|t.vx| * (0.7 : ℚ))| = |t.vx| * 0.7 :=
    abs_of_nonneg (mul_nonneg (abs_nonneg _) (by norm_num))
  have habsy : |(|t.vy| * (0.7 : ℚ))| = |t.vy| * 0.7 :=
    abs_of_nonneg (mul_nonneg (abs_nonneg _) (by norm_num))
  have hx : (moveContain env dt t).vx ^ 2 ≤ t.vx ^ 2 := by
    simp only [moveContain]
    split_ifs <;> (try rw [habsx]) <;> nlinarith [sq_abs t.vx, sq_nonneg t.vx]
  have hy : (moveContain env dt t).vy ^ 2 ≤ t.vy ^ 2 := by
    simp only [moveContain]
    split_ifs <;> (try rw [habsy]) <;> nlinarith [sq_abs t.vy, sq_nonneg t.vy]
  linarith

/-- C2: after a tick of the integrator the squared velocity magnitude is
at most the square of the current speed cap — the base maximum speed `220`
times the panic multiplier `1.12` when the pursuer is within the panic
distance `150`, times `1` otherwise — provided the pre-clamp speed is an
exact rational (`Math.hypot` returns the true length). -/
theorem integrate_speed_capped (env : Env) (t : Agent) (ai : AIState)
    (base : SteerBase) (dt : ℚ) (rng : ℕ)
    (h : ∃ r : ℚ, 0 ≤ r ∧
      r ^ 2 = (aiPreVel env t ai base dt rng).1 ^ 2 +
        (aiPreVel env t ai base dt rng).2 ^ 2) :
    (aiIntegrate env t ai base dt rng).1.vx ^ 2 +
      (aiIntegrate env t ai base dt rng).1.vy ^ 2
      ≤ (TARGET_MAX_SPEED * (if base.d < 150 then PANIC_SPEED_UP else 1)) ^ 2 := by
  obtain ⟨r, hr, hsq⟩ := h
  have heq : (aiIntegrate env t ai base dt rng).1
      = moveContain env dt
          { t with
            vx := (speedClamp (aiPreVel env t ai base dt rng).1
              (aiPreVel env t ai base dt rng).2
              (TARGET_MAX_SPEED * (if base.d < 150 then PANIC_SPEED_UP else 1))).1,
            vy := (speedClamp (aiPreVel env t ai base dt rng).1
              (aiPreVel env t ai base dt rng).2
              (TARGET_MAX_SPEED * (if base.d < 150 then PANIC_SPEED_UP else 1))).2 } := rfl
  rw [heq]
  refine le_trans (moveContain_vsq env dt _) ?_
  exact speedClamp_sq_le _ _ _ r hr hsq

/-- The agent of the C2 witness: a (fictitious) incoming velocity
`(300, 400)` of exact length `500`, above the cap. -/
def speedAgent : Agent :=
  { x := 100, y := 100, w := 24, h := 24, vx := 300, vy := 400, ai := none }

/-- Witness for C2: at `dt = 0` the pre-clamp velocity is the incoming
`(300, 400)`, of exact length `500 > 220`, and the clamped tick satisfies
the bound. -/
theorem integrate_speed_capped_witness :
    (∃ r : ℚ, 0 ≤ r ∧
      r ^ 2 = (aiPreVel envW speedAgent zeroAI baseW 0 0).1 ^ 2 +
        (aiPreVel envW speedAgent zeroAI baseW 0 0).2 ^ 2) ∧
    (aiIntegrate envW speedAgent zeroAI baseW 0 0).1.vx ^ 2 +
      (aiIntegrate envW speedAgent zeroAI baseW 0 0).1.vy ^ 2
      ≤ (TARGET_MAX_SPEED * (if baseW.d < 150 then PANIC_SPEED_UP else 1)) ^ 2 := by
  have hex : (∃ r : ℚ, 0 ≤ r ∧
      r ^ 2 = (aiPreVel envW speedAgent zeroAI baseW 0 0).1 ^ 2 +
        (aiPreVel envW speedAgent zeroAI baseW 0 0).2 ^ 2) := by
    refine ⟨500, by norm_num, ?_⟩
    have h1 : (aiPreVel envW speedAgent zeroAI baseW 0 0).1 = 300 := by
      simp [aiPreVel, speedAgent]
    have h2 : (aiPreVel envW speedAgent zeroAI baseW 0 0).2 = 400 := by
      simp [aiPreVel, speedAgent]
    rw [h1, h2]
    norm_num
  exact ⟨hex, integrate_speed_capped envW speedAgent zeroAI baseW 0 0 hex⟩

-- ---------------------------
-- C9: the per-tick pass is NOT mark-then-compact
-- ---------------------------

/-- A fully initialized behaviour state (`wanderTimer = 1`,
`wanderPhase = 0`, everything else zero) for the C9 counterexample. -/
def cexAI : AIState :=
  { wanderTimer := 1, wanderPhase := 0, lastSteerX := 0, lastSteerY := 0,
    jukeTime := 0, jukeCool := 0, jukeDirX := 0, jukeDirY := 0,
    patrolTime := 0, patrolCool := 0, patrolDirX := 0, patrolDirY := 0,
    sectorIndex := some 0 }

/-- Counterexample agent A (index 0), 89 px left of B. -/
def cexA : Agent :=
  { x := 188, y := 228, w := 24, h := 24, vx := 0, vy := 0, ai := some cexAI }

/-- Counterexample agent B (index 1), moving right at 100 px/s. -/
def cexB : Agent :=
  { x := 277, y := 228, w := 24, h := 24, vx := 100, vy := 0,
    ai := some { cexAI with sectorIndex := some 1 } }

/-- Counterexample player, far to the right on the same horizontal line. -/
def cexPlayer : Rect := { x := 588, y := 228, w := 24, h := 24 }

/-- The session-start heat singleton (`grid: null`). -/
def cexHeat : Heat := { grid := none, cols := 0, rows := 0, lastW := 0, lastH := 0 }

/-- The pre-tick loop state of the C9 counterexample. -/
def cexLoopSt : LoopSt :=
  { targets := [cexA, cexB], heat := cexHeat, assigned := true,
    score := 0, rng := 0 }

set_option maxRecDepth 40000 in
set_option maxHeartbeats 1000000 in
/-- Counterexample for C9: the actual tick loop is NOT observationally
equivalent to running every agent's update against the full pre-tick list
and then compacting.  Agent B (updated first) moves from `x = 277` to
`x = 278.024`, pushing its distance to agent A across the separation
radius `90`: the real loop lets A read B's updated position (separation
inactive, A drifts right to `x = 188.024`), while the mark-then-compact
reference reads B's pre-tick position (separation active, A is pushed left
to `x = 187.976`). -/
theorem tick_not_mark_then_compact_cex :
    (tickLoop envW cexPlayer (1/100) 2 cexLoopSt).targets
      ≠ specMarkThenCompact envW cexPlayer (1/100) [cexA, cexB] cexHeat true 0 := by
  with_unfolding_all decide

/-- The real effect of one loop iteration on the agent at index `i` when
sectors are already assigned: lazily init its `_ai`, advance the heat
field, then run the steering layers with the CURRENT list (with the inited
self written back at `i`) as the neighbour context. -/
def agentTick (env : Env) (p : Rect) (dt : ℚ) (ts : List Agent) (i : ℕ)
    (t0 : Agent) (heat : Heat) (rng : ℕ) : Agent × Heat × ℕ :=
  let m1 := aiInit env t0 rng
  let heat1 := heatmapTick env dt p heat
  let m3 := agentSteerCore env p dt (ts.set i m1.1) i m1.1 heat1 m1.2
  (m3.1, heat1, m3.2)

/-- Sequential reference tick: process the reversed prefix head-first
(i.e. agents in decreasing index order); each agent is updated against the
current collection — unprocessed prefix, itself, then the already-updated
survivors — and a captured agent is removed immediately. -/
def seqTickAux (env : Env) (p : Rect) (dt : ℚ) :
    List Agent → List Agent → Heat → ℕ → ℕ → List Agent × Heat × ℕ × ℕ
  | [], acc, heat, score, rng => (acc, heat, score, rng)
  | t :: rest, acc, heat, score, rng =>
    let ctx := rest.reverse ++ t :: acc
    let m := agentTick env p dt ctx rest.length t heat rng
    if rectsOverlap p (agentRect m.1) then
      seqTickAux env p dt rest acc m.2.1 (score + 1) m.2.2
    else
      seqTickAux env p dt rest (m.1 :: acc) m.2.1 score m.2.2

theorem list_getQ_mid {α : Type} (l1 l2 : List α) (t : α) :
    (l1 ++ t :: l2)[l1.length]? = some t := by
  induction l1 with
  | nil => simp
  | cons a l1 ih => simpa using ih

theorem list_set_mid {α : Type} (l1 l2 : List α) (t u : α) :
    (l1 ++ t :: l2).set l1.length u = l1 ++ u :: l2 := by
  induction l1 with
  | nil => rfl
  | cons a l1 ih => simp [List.set, ih]

theorem list_erase_mid {α : Type} (l1 l2 : List α) (t : α) :
    (l1 ++ t :: l2).eraseIdx l1.length = l1 ++ l2 := by
  induction l1 with
  | nil => rfl
  | cons a l1 ih => simp [List.eraseIdx, ih]

theorem list_getQ_set_self {α : Type} (l : List α) (i : ℕ) (a : α)
    (h : i < l.length) : (l.set i a)[i]? = some a := by
  induction l generalizing i with
  | nil => simp at h
  | cons b l ih =>
    cases i with
    | zero => simp
    | succ i =>
      simp only [List.set]
      simpa using ih i (by simpa using h)

/-- `updateTargetAI` in an assigned session only rewrites the entry `i`:
it is `agentTick` written back at index `i`. -/
theorem updateTargetAI_assigned (env : Env) (p : Rect) (dt : ℚ)
    (ts : List Agent) (i : ℕ) (heat : Heat) (rng : ℕ) (t0 : Agent)
    (hget : ts[i]? = some t0) (hlt : i < ts.length) :
    updateTargetAI env p dt ts i heat true rng
      = (ts.set i (agentTick env p dt ts i t0 heat rng).1,
         (agentTick env p dt ts i t0 heat rng).2.1, true,
         (agentTick env p dt ts i t0 heat rng).2.2) := by
  unfold updateTargetAI
  rw [hget]
  have hassign : aiAssignSectors env (ts.set i (aiInit env t0 rng).1) true
      (aiInit env t0 rng).2
      = (ts.set i (aiInit env t0 rng).1, true, (aiInit env t0 rng).2) := by
    simp [aiAssignSectors]
  simp only [hassign]
  have hgot : (ts.set i (aiInit env t0 rng).1)[i]? = some (aiInit env t0 rng).1 :=
    list_getQ_set_self ts i _ hlt
  simp only [hgot, Option.getD_some]
  unfold agentTick
  simp only [List.set_set]

/-- The imperative backwards loop equals the sequential reference, for any
split of the target list into an unprocessed reversed prefix and already
processed survivors. -/
theorem tickLoop_eq_seqTickAux (env : Env) (p : Rect) (dt : ℚ) :
    ∀ (rev acc : List Agent) (heat : Heat) (score rng : ℕ),
      tickLoop env p dt rev.length
        { targets := rev.reverse ++ acc, heat := heat, assigned := true,
          score := score, rng := rng }
        = { targets := (seqTickAux env p dt rev acc heat score rng).1,
            heat := (seqTickAux env p dt rev acc heat score rng).2.1,
            assigned := true,
            score := (seqTickAux env p dt rev acc heat score rng).2.2.1,
            rng := (seqTickAux env p dt rev acc heat score rng).2.2.2 } := by
  intro rev
  induction rev with
  | nil =>
    intro acc heat score rng
    simp [tickLoop, seqTickAux]
  | cons t rest ih =>
    intro acc heat score rng
    have hsplit : (t :: rest).reverse ++ acc = rest.reverse ++ t :: acc := by
      simp
    have hlen : (t :: rest).length = rest.length + 1 := rfl
    rw [hlen, hsplit]
    show tickLoop env p dt rest.length
        (tickStep env p dt rest.length
          { targets := rest.reverse ++ t :: acc, heat := heat,
            assigned := true, score := score, rng := rng }) = _
    have hi : rest.length = (rest.reverse).length := (List.length_reverse rest).symm
    have hget : (rest.reverse ++ t :: acc)[rest.length]? = some t := by
      rw [hi]; exact list_getQ_mid _ _ _
    have hlt : rest.length < (rest.reverse ++ t :: acc).length := by
      simp
    have hgot2 : ((rest.reverse ++ t :: acc).set rest.length
        (agentTick env p dt (rest.reverse ++ t :: acc) rest.length t heat rng).1)[rest.length]?
        = some (agentTick env p dt (rest.reverse ++ t :: acc) rest.length t heat rng).1 :=
      list_getQ_set_self _ _ _ hlt
    have hset : (rest.reverse ++ t :: acc).set rest.length
        (agentTick env p dt (rest.reverse ++ t :: acc) rest.length t heat rng).1
        = rest.reverse ++
          (agentTick env p dt (rest.reverse ++ t :: acc) rest.length t heat rng).1
            :: acc := by
      rw [hi]; exact list_set_mid _ _ _ _
    have herase : (rest.reverse ++
        (agentTick env p dt (rest.reverse ++ t :: acc) rest.length t heat rng).1
          :: acc).eraseIdx rest.length = rest.reverse ++ acc := by
      rw [hi]; exact list_erase_mid _ _ _
    have hstep : tickStep env p dt rest.length
        { targets := rest.reverse ++ t :: acc, heat := heat,
          assigned := true, score := score, rng := rng }
        = (if rectsOverlap p (agentRect
              (agentTick env p dt (rest.reverse ++ t :: acc) rest.length t heat rng).1)
           then { targets := rest.reverse ++ acc,
                  heat := (agentTick env p dt (rest.reverse ++ t :: acc)
                    rest.length t heat rng).2.1,
                  assigned := true, score := score + 1,
                  rng := (agentTick env p dt (rest.reverse ++ t :: acc)
                    rest.length t heat rng).2.2 }
           else { targets := rest.reverse ++
                    (agentTick env p dt (rest.reverse ++ t :: acc)
                      rest.length t heat rng).1 :: acc,
                  heat := (agentTick env p dt (rest.reverse ++ t :: acc)
                    rest.length t heat rng).2.1,
                  assigned := true, score := score,
                  rng := (agentTick env p dt (rest.reverse ++ t :: acc)
                    rest.length t heat rng).2.2 }) := by
      unfold tickStep
      rw [updateTargetAI_assigned env p dt _ _ heat rng t hget hlt]
      simp only [hgot2]
      split
      · rw [hset, herase]
      · rw [hset]
    rw [hstep]
    simp only [seqTickAux]
    split
    · rename_i hcap
      exact ih acc _ (score + 1) _
    · rename_i hcap
      exact ih _ _ score _

/-- C9 (amended): the per-tick pass updates every agent exactly once, in
decreasing index order, but does NOT defer removal: a captured agent is
removed immediately after its own update, and each update reads the
current (partially updated, already compacted) collection.  Formally the
loop equals the sequential immediate-removal fold `seqTickAux` over the
reversed list. -/
theorem tick_is_sequential_immediate_removal (env : Env) (p : Rect) (dt : ℚ)
    (ts : List Agent) (heat : Heat) (score rng : ℕ) :
    tickLoop env p dt ts.length
      { targets := ts, heat := heat, assigned := true, score := score, rng := rng }
      = { targets := (seqTickAux env p dt ts.reverse [] heat score rng).1,
          heat := (seqTickAux env p dt ts.reverse [] heat score rng).2.1,
          assigned := true,
          score := (seqTickAux env p dt ts.reverse [] heat score rng).2.2.1,
          rng := (seqTickAux env p dt ts.reverse [] heat score rng).2.2.2 } := by
  have h := tickLoop_eq_seqTickAux env p dt ts.reverse [] heat score rng
  simpa using h

-- ---------------------------
-- C7: heat-avoidance is not a two-axis finite-difference gradient
-- ---------------------------

/-- Modelled from the spec (§4.4 step 5, claim C7): heat-avoidance as the
negative of a finite-difference gradient with two offset samples per axis
(`sample(center + offset) - sample(center - offset)` in x AND in y),
scaled by the same constant the code uses. -/
def specHeatGradSteer (env : Env) (h : Heat) (t : Agent) (base : SteerBase) :
    SteerBase :=
  match h.grid with
  | none => base
  | some _ =>
    let cx := t.x + t.w / 2
    let cy := t.y + t.h / 2
    let gX := heatmapSample env h (cx + 24) cy - heatmapSample env h (cx - 24) cy
    let gY := heatmapSample env h cx (cy + 24) - heatmapSample env h cx (cy - 24)
    { base with sx := base.sx + -gX * 0.02 * HEATMAP_BIAS,
                sy := base.sy + -gY * 0.02 * HEATMAP_BIAS }

/-- The heat grid of the C7 counterexample: heat `1` in cell 0, zero
elsewhere, on the 8×6 grid of a 640×480 arena. -/
def cexGrid : List ℚ := 1 :: List.replicate 47 0

/-- The heat state of the C7 counterexample (consistent with `envW`). -/
def cexHeatC : Heat :=
  { grid := some cexGrid, cols := 8, rows := 6, lastW := 640, lastH := 480 }

/-- The agent of the C7 counterexample, centered at `(40, 40)` inside heat
cell 0. -/
def heatAgent : Agent :=
  { x := 28, y := 28, w := 24, h := 24, vx := 0, vy := 0, ai := none }

set_option maxRecDepth 20000 in
/-- Counterexample for C7: the code's y-axis heat term is a single sample
at the coordinate-swapped point `(cy + 24, cx)`, not a two-sample
difference, so on a grid with heat only in cell 0 the code's steering
(`sy` shifted by `-0.015`) differs from the spec's two-axis gradient
(`sy` unchanged). -/
theorem heat_bias_not_gradient_cex :
    aiHeatmapBias envW cexHeatC heatAgent baseW
      ≠ specHeatGradSteer envW cexHeatC heatAgent baseW := by
  with_unfolding_all decide

/-- C7 (amended): with a live grid, the x contribution is the negative
central difference exactly as the spec says (and coincides with the spec
model), but the y contribution is the negative of ONE heat sample taken at
the coordinate-swapped point `(cy + 24, cx)`, scaled by the same
`0.02 * HEATMAP_BIAS`; the other fields of the accumulator are unchanged. -/
theorem heat_bias_actual (env : Env) (h : Heat) (t : Agent) (base : SteerBase)
    (g : List ℚ) (hg : h.grid = some g) :
    (aiHeatmapBias env h t base).sx
      = base.sx + -(heatmapSample env h (t.x + t.w / 2 + 24) (t.y + t.h / 2)
          - heatmapSample env h (t.x + t.w / 2 - 24) (t.y + t.h / 2))
        * 0.02 * HEATMAP_BIAS ∧
    (aiHeatmapBias env h t base).sy
      = base.sy + -(heatmapSample env h (t.y + t.h / 2 + 24) (t.x + t.w / 2))
        * 0.02 * HEATMAP_BIAS ∧
    (aiHeatmapBias env h t base).sx = (specHeatGradSteer env h t base).sx ∧
    (aiHeatmapBias env h t base).d = base.d := by
  simp only [aiHeatmapBias, specHeatGradSteer, hg]
  exact ⟨trivial, trivial, trivial, trivial⟩

/-- Witness for C7's amended theorem at the counterexample configuration. -/
theorem heat_bias_actual_witness :
    cexHeatC.grid = some cexGrid ∧
    ((aiHeatmapBias envW cexHeatC heatAgent baseW).sx
      = baseW.sx + -(heatmapSample envW cexHeatC (heatAgent.x + heatAgent.w / 2 + 24)
            (heatAgent.y + heatAgent.h / 2)
          - heatmapSample envW cexHeatC (heatAgent.x + heatAgent.w / 2 - 24)
            (heatAgent.y + heatAgent.h / 2)) * 0.02 * HEATMAP_BIAS ∧
     (aiHeatmapBias envW cexHeatC heatAgent baseW).sy
      = baseW.sy + -(heatmapSample envW cexHeatC (heatAgent.y + heatAgent.h / 2 + 24)
            (heatAgent.x + heatAgent.w / 2)) * 0.02 * HEATMAP_BIAS ∧
     (aiHeatmapBias envW cexHeatC heatAgent baseW).sx
      = (specHeatGradSteer envW cexHeatC heatAgent baseW).sx ∧
     (aiHeatmapBias envW cexHeatC heatAgent baseW).d = baseW.d) :=
  ⟨rfl, heat_bias_actual envW cexHeatC heatAgent baseW cexGrid rfl⟩

-- ---------------------------
-- C8: the smoothed steering direction is not a unit vector
-- ---------------------------

/-- Counterexample for C8: at the initial state (`lastSteer = (0, 0)`)
with summed steering `(1, 0)`, the blended direction handed to the
integrator is `(0.4, 0)` — not a unit vector. -/
theorem steer_smooth_not_unit_cex :
    ¬ ((aiSmoothNorm zeroAI 1 0).1.1 ^ 2 + (aiSmoothNorm zeroAI 1 0).1.2 ^ 2 = 1) := by
  with_unfolding_all decide

/-- C8 (amended): the composer normalizes the summed steering vector with
the `||1` guard (a genuinely unit result whenever the sum is nonzero and
its length is an exact rational), blends it as
`smoothed = new * (1 - k) + previous * k`, stores the blend as the next
frame's `previous` — and the direction handed to the integrator has norm
AT MOST `1` (not exactly `1`), provided the stored previous direction had
norm at most `1`. -/
theorem steer_smooth_blend_bounded (ai : AIState) (sx sy : ℚ)
    (hlast : ai.lastSteerX ^ 2 + ai.lastSteerY ^ 2 ≤ 1)
    (hex : ∃ r : ℚ, 0 ≤ r ∧ r ^ 2 = sx ^ 2 + sy ^ 2) :
    (aiSmoothNorm ai sx sy).1.1
      = sx / len sx sy * (1 - SMOOTH) + ai.lastSteerX * SMOOTH ∧
    (aiSmoothNorm ai sx sy).1.2
      = sy / len sx sy * (1 - SMOOTH) + ai.lastSteerY * SMOOTH ∧
    (aiSmoothNorm ai sx sy).2.lastSteerX = (aiSmoothNorm ai sx sy).1.1 ∧
    (aiSmoothNorm ai sx sy).2.lastSteerY = (aiSmoothNorm ai sx sy).1.2 ∧
    ((sx ≠ 0 ∨ sy ≠ 0) →
      (sx / len sx sy) ^ 2 + (sy / len sx sy) ^ 2 = 1) ∧
    (aiSmoothNorm ai sx sy).1.1 ^ 2 + (aiSmoothNorm ai sx sy).1.2 ^ 2 ≤ 1 := by
  obtain ⟨r, hr, hsq⟩ := hex
  have hunit : (sx ≠ 0 ∨ sy ≠ 0) →
      (sx / len sx sy) ^ 2 + (sy / len sx sy) ^ 2 = 1 := by
    intro hne
    have hr0 : r ≠ 0 := by
      intro h0
      subst h0
      have hx : sx = 0 := by nlinarith [sq_nonneg sx, sq_nonneg sy]
      have hy : sy = 0 := by nlinarith [sq_nonneg sx, sq_nonneg sy]
      rcases hne with hne | hne <;> exact hne (by assumption)
    have hrpos : 0 < r := lt_of_le_of_ne hr (Ne.symm hr0)
    rw [len_exact sx sy r hrpos hsq]
    field_simp
    linear_combination -hsq
  have hu : (sx / len sx sy) ^ 2 + (sy / len sx sy) ^ 2 ≤ 1 := by
    by_cases hz : sx = 0 ∧ sy = 0
    · rw [hz.1, hz.2]
      simp
    · rw [hunit (by tauto)]
  have hax : (aiSmoothNorm ai sx sy).1.1
      = sx / len sx sy * (1 - SMOOTH) + ai.lastSteerX * SMOOTH := rfl
  have hay : (aiSmoothNorm ai sx sy).1.2
      = sy / len sx sy * (1 - SMOOTH) + ai.lastSteerY * SMOOTH := rfl
  refine ⟨hax, hay, rfl, rfl, hunit, ?_⟩
  rw [hax, hay]
  simp only [SMOOTH]
  nlinarith [sq_nonneg (sx / len sx sy - ai.lastSteerX),
    sq_nonneg (sy / len sx sy - ai.lastSteerY), hu, hlast]

/-- Witness for C8's amended theorem at the counterexample input. -/
theorem steer_smooth_blend_bounded_witness :
    zeroAI.lastSteerX ^ 2 + zeroAI.lastSteerY ^ 2 ≤ 1 ∧
    (∃ r : ℚ, 0 ≤ r ∧ r ^ 2 = (1 : ℚ) ^ 2 + (0 : ℚ) ^ 2) ∧
    (aiSmoothNorm zeroAI 1 0).1.1 ^ 2 + (aiSmoothNorm zeroAI 1 0).1.2 ^ 2 ≤ 1 := by
  have h1 : zeroAI.lastSteerX ^ 2 + zeroAI.lastSteerY ^ 2 ≤ 1 := by
    norm_num [zeroAI]
  have h2 : ∃ r : ℚ, 0 ≤ r ∧ r ^ 2 = (1 : ℚ) ^ 2 + (0 : ℚ) ^ 2 :=
    ⟨1, by norm_num, by norm_num⟩
  exact ⟨h1, h2, (steer_smooth_blend_bounded zeroAI 1 0 h1 h2).2.2.2.2.2⟩

-- ---------------------------
-- C4: clear-then-refill to the exact cap, with spawn fallback
-- ---------------------------

/-- If every one of the `n` remaining attempts would overlap the player,
the rejection loop consumes all of them (two draws each) and returns the
fallback. -/
theorem spawnGo_exhaust (env : Env) (p : Rect) :
    ∀ (n rs : ℕ),
      (∀ k, k < n → rectsOverlap p (agentRect (makeTarget env (rs + 2 * k)).1) = true) →
      spawnGo env p n rs = (fallbackTarget env, rs + 2 * n) := by
  intro n
  induction n with
  | zero =>
    intro rs _
    simp [spawnGo]
  | succ n ih =>
    intro rs h
    have h0 := h 0 (by omega)
    rw [show rs + 2 * 0 = rs by ring] at h0
    simp only [spawnGo]
    rw [if_pos h0]
    have hrec := ih (rs + 2) (by
      intro k hk
      have := h (k + 1) (by omega)
      rw [show rs + 2 * (k + 1) = rs + 2 + 2 * k by ring] at this
      exact this)
    rw [show (makeTarget env rs).2 = rs + 2 from rfl, hrec]
    have : rs + 2 + 2 * n = rs + 2 * (n + 1) := by ring
    rw [this]

/-- Every spawn either avoids the player or is the fallback position. -/
theorem spawnGo_no_overlap (env : Env) (p : Rect) :
    ∀ (n rs : ℕ),
      rectsOverlap p (agentRect (spawnGo env p n rs).1) = false ∨
      (spawnGo env p n rs).1 = fallbackTarget env := by
  intro n
  induction n with
  | zero =>
    intro rs
    exact Or.inr rfl
  | succ n ih =>
    intro rs
    simp only [spawnGo]
    by_cases hb : rectsOverlap p (agentRect (makeTarget env rs).1) = true
    · rw [if_pos hb]
      exact ih _
    · rw [if_neg hb]
      exact Or.inl (Bool.eq_false_iff.mpr hb)

/-- C4: whenever the capture pass leaves the active set empty (and the
session survives the tick), the clear-then-refill branch of `update`
respawns until the active count equals `targetCap` at the post-tick
elapsed time exactly; each spawn is rejection-sampled (up to 20 attempts,
two random draws each) to avoid the pursuer's rectangle, and if all 20
attempts overlap the pursuer the fixed fallback `(W - w - 10, H - h - 10)`
is returned instead of failing. -/
theorem clear_refill_exact_cap (env : Env) (dt : ℚ) (st : GameState)
    (halive : st.alive = true)
    (hhp : 0 < clamp (st.hp - HEALTH_DECAY_PER_SEC * dt) 0 HEALTH_MAX)
    (hclear : (capturePass env dt st).targets = [])
    (helap : 0 ≤ st.elapsed + dt) :
    ((update env dt st).targets.length : ℤ) = targetCap (st.elapsed + dt) ∧
    (∀ (p : Rect) (rs : ℕ),
      (∀ k, k < 20 → rectsOverlap p (agentRect (makeTarget env (rs + 2 * k)).1) = true) →
      spawnAvoidingPlayer env p rs = (fallbackTarget env, rs + 40)) ∧
    (∀ (p : Rect) (rs : ℕ),
      rectsOverlap p (agentRect (spawnAvoidingPlayer env p rs).1) = false ∨
      (spawnAvoidingPlayer env p rs).1 = fallbackTarget env) := by
  refine ⟨?_, ?_, ?_⟩
  · have hcap0 : 0 ≤ targetCap (st.elapsed + dt) := by
      unfold targetCap targetCapGen
      have : (0 : ℤ) ≤ ⌊(st.elapsed + dt) / TIME_STEP_SEC⌋ := by
        apply Int.floor_nonneg.mpr
        apply div_nonneg helap
        norm_num [TIME_STEP_SEC]
      omega
    simp only [update, halive, if_true]
    rw [if_neg (not_le.mpr hhp)]
    rw [show (capturePass env dt st).targets = [] from hclear]
    simp only [List.length_nil, eq_self_iff_true, if_true]
    rw [refillTargets_length]
    simp only [List.length_nil, Nat.max_eq_right (Nat.zero_le _)]
    exact Int.toNat_of_nonneg hcap0
  · intro p rs h
    have := spawnGo_exhaust env p 20 rs h
    rw [show rs + 2 * 20 = rs + 40 by ring] at this
    exact this
  · intro p rs
    exact spawnGo_no_overlap env p 20 rs

/-- The game state of the C4 witness: a single target exactly on top of
the player, so the capture pass clears the set; the controller then
refills to the cap. -/
def clearState : GameState :=
  { player := { x := 120, y := 120, w := 24, h := 24 }, score := 0,
    hp := 100, alive := true, elapsed := 0,
    targets := [{ x := 120, y := 120, w := 24, h := 24, vx := 0, vy := 0,
                  ai := some cexAI }],
    heat := cexHeat, assigned := true }

set_option maxRecDepth 40000 in
set_option maxHeartbeats 1000000 in
/-- Witness for C4: at `dt = 0` the overlapping target is captured, the
set becomes empty, and `update` refills to exactly `targetCap = 1`. -/
theorem clear_refill_exact_cap_witness :
    clearState.alive = true ∧
    0 < clamp (clearState.hp - HEALTH_DECAY_PER_SEC * 0) 0 HEALTH_MAX ∧
    (capturePass envW 0 clearState).targets = [] ∧
    (0 : ℚ) ≤ clearState.elapsed + 0 ∧
    ((update envW 0 clearState).targets.length : ℤ)
      = targetCap (clearState.elapsed + 0) := by
  have h1 : clearState.alive = true := rfl
  have h2 : 0 < clamp (clearState.hp - HEALTH_DECAY_PER_SEC * 0) 0 HEALTH_MAX := by
    norm_num [clearState, clamp, HEALTH_DECAY_PER_SEC, HEALTH_MAX]
  have h3 : (capturePass envW 0 clearState).targets = [] := by
    with_unfolding_all decide
  have h4 : (0 : ℚ) ≤ clearState.elapsed + 0 := by
    norm_num [clearState]
  exact ⟨h1, h2, h3, h4,
    (clear_refill_exact_cap envW 0 clearState h1 h2 h3 h4).1⟩

end Game
